import Mathlib

/-!
Shallow embedding of the `ant` signal-slot library (`src/signal.hpp`) and
proofs about the claims of its specification.

The C++ core is a header-only template `ant::signal<Args...>` plus a
move-only `ant::connection`.  The state that matters:

* each `signal` instance owns `slots : std::vector<std::shared_ptr<SlotWrapper>>`
  and a counter `next_id`;
* a `SlotWrapper` holds the callable, an `std::optional<std::weak_ptr<void>>`
  owner reference and an integer `id`;
* `slots_queue : std::deque<...>` and `emitting : bool` are `static inline`
  members, i.e. ONE queue and ONE flag shared by every `signal` instance of a
  given argument-type signature;
* `connection` holds a disconnect closure and a `connected` flag.

We embed one argument-type signature with `Nat` payloads.  Several `signal`
instances of that signature live in one `World`; they share the queue and the
`emitting` flag exactly as the `static inline` members do.  Callables are
identified by a `Nat` key `cb`; their behaviour is an environment `Env`
mapping the key, the invocation argument and the number of earlier
invocations of that key (so a callback can act differently on later calls,
like a stateful C++ lambda) to a list of effects: raising an error, calling
`emit` on some instance, disconnecting.  Weak-pointer expiry is modelled by a
set `alive` of owner keys.  The observable behaviour is a `trace` of
`(cb, argument)` pairs, one entry per actual invocation of a callable body
(an owner-bound slot whose owner has expired contributes nothing, matching
the `weak_object.lock()` guard inside the stored lambda).

The mutually recursive `emit` / drain-loop / callback-body execution is made
total with a fuel parameter; `none` means the fuel ran out (the C++ loop can
genuinely diverge when callbacks keep re-emitting).
-/

namespace Ant

/-- Effects a slot callable may perform while it runs, besides being observed
in the trace: call `emit` on signal instance `inst` with value `v`, raise an
error (which aborts the rest of the callable's body and escapes into the
dispatch loop's `catch`), remove a slot with a given id from an instance
(a `connection::disconnect` made from inside a slot), or clear an instance's
subscriber list (`disconnect_all`). -/
inductive SlotAction where
  | emitS (inst : Nat) (v : Nat)
  | throwErr
  | disconnectId (inst : Nat) (id : Nat)
  | disconnectAllS (inst : Nat)
deriving DecidableEq

/-- Mirror of `signal::SlotWrapper`: the stored callable (identified by the
key `cb` into the callback environment), the optional weak owner reference
(`weak_ref_opt`, an owner key), and the per-signal identifier `id`. -/
structure SlotWrapper where
  cb : Nat
  weak_ref_opt : Option Nat
  id : Nat
deriving DecidableEq

/-- Per-instance state of one `ant::signal`: the subscriber list `slots`
(registration order) and the identifier counter `next_id`. -/
structure SigInst where
  slots : List SlotWrapper
  next_id : Nat
deriving DecidableEq

/-- The whole mutable state relevant to one argument-type signature:
the `signal` instances sharing it, the shared `static inline` pending queue
`slots_queue` and reentrancy flag `emitting`, the set of owner keys whose
objects are still alive, and the observable invocation trace. -/
structure World where
  instances : List SigInst
  slots_queue : List SlotWrapper
  emitting : Bool
  alive : List Nat
  trace : List (Nat × Nat)
deriving DecidableEq

/-- Behaviour of the callables: key of the callable, argument it is invoked
with, number of its earlier invocations (read off the trace), giving the list
of effects its body performs in order. -/
abbrev Env := Nat → Nat → Nat → List SlotAction

/-- How many invocations of callable `c` a trace records. -/
def countCb (t : List (Nat × Nat)) (c : Nat) : Nat :=
  (t.filter (fun p => decide (p.1 = c))).length

/-- A wrapper is expired when it has a weak owner reference and the owner is
no longer alive — the predicate of `signal::cleanup_expired`
(`weak_ref_opt.has_value() && weak_ref_opt.value().expired()`). -/
def expired (alive : List Nat) (w : SlotWrapper) : Bool :=
  match w.weak_ref_opt with
  | none => false
  | some o => !(alive.contains o)

/-- Mirror of `signal::cleanup_expired`: erase every expired wrapper from the
subscriber list. -/
def cleanup_expired (alive : List Nat) (s : SigInst) : SigInst :=
  { s with slots := s.slots.filter (fun w => !(expired alive w)) }

/-- Mirror of `signal::disconnect_by_id`: erase the wrappers whose `id`
matches. -/
def disconnect_by_id (s : SigInst) (id : Nat) : SigInst :=
  { s with slots := s.slots.filter (fun w => decide (w.id ≠ id)) }

/-- Read signal instance `i` of the world (instances are addressed by their
position; a missing index reads as an empty signal). -/
def getInst (w : World) (i : Nat) : SigInst :=
  w.instances.getD i ⟨[], 0⟩

/-- Write back signal instance `i` of the world. -/
def setInst (w : World) (i : Nat) (s : SigInst) : World :=
  { w with instances := w.instances.set i s }

/-- Mirror of `ant::connection`: the disconnect closure created by
`signal::connect` captures the signal (`this`) and the slot id, so we record
its target as the pair `(instance, id)`; `target = none` models a
default-constructed connection whose `disconnect_func` is empty.  The
`connected` flag starts `true` exactly as in the C++ class. -/
structure Conn where
  target : Option (Nat × Nat)
  connected : Bool
deriving DecidableEq

/-- Mirror of `signal::connect(std::function)`: clean up expired entries,
take the next identifier, append a wrapper with no owner reference, and hand
back a connection whose disconnect action is bound to this instance and id. -/
def connect (w : World) (i : Nat) (cb : Nat) : World × Conn :=
  let s := cleanup_expired w.alive (getInst w i)
  let id := s.next_id
  let s2 : SigInst := ⟨s.slots ++ [⟨cb, none, id⟩], id + 1⟩
  (setInst w i s2, ⟨some (i, id), true⟩)

/-- Mirror of `signal::connect(shared_ptr, method)`: as `connect`, but the
wrapper stores a weak reference to the owner, and the stored lambda only
calls the method if the owner still locks (handled at invocation time by the
`expired` check in the drain loop). -/
def connect_owner (w : World) (i : Nat) (owner : Nat) (cb : Nat) : World × Conn :=
  let s := cleanup_expired w.alive (getInst w i)
  let id := s.next_id
  let s2 : SigInst := ⟨s.slots ++ [⟨cb, some owner, id⟩], id + 1⟩
  (setInst w i s2, ⟨some (i, id), true⟩)

/-- Mirror of `signal::disconnect_all`: clear the subscriber list; `next_id`
is untouched and the shared queue is untouched. -/
def disconnect_all (w : World) (i : Nat) : World :=
  setInst w i ⟨[], (getInst w i).next_id⟩

/-- Mirror of `signal::slot_count`: clean up expired entries, then report the
size of the subscriber list (the world after the pruning is also returned,
because the pruning mutates the list). -/
def slot_count (w : World) (i : Nat) : World × Nat :=
  let s := cleanup_expired w.alive (getInst w i)
  (setInst w i s, s.slots.length)

/-- Destruction of the owner object behind owner key `o`: only the liveness
set changes; no signal state is touched (weak pointers expire silently). -/
def destroy_owner (w : World) (o : Nat) : World :=
  { w with alive := w.alive.filter (fun x => decide (x ≠ o)) }

/-- The first half of `signal::emit`, shared by the reentrant and the
non-reentrant path: `cleanup_expired()`, snapshot `slots_copy = slots`, and
append the snapshot to the shared `slots_queue`. -/
def enqueuePhase (w : World) (i : Nat) : World :=
  let s := cleanup_expired w.alive (getInst w i)
  let w1 := setInst w i s
  { w1 with slots_queue := w1.slots_queue ++ s.slots }

/-- Mirror of `connection::disconnect`: fire the closure only when still
connected and a closure is present, then clear the flag unconditionally.
The third component reports whether the disconnect action actually fired. -/
def conn_disconnect (c : Conn) (w : World) : Conn × World × Bool :=
  if c.connected then
    match c.target with
    | some (i, id) => (⟨c.target, false⟩, setInst w i (disconnect_by_id (getInst w i) id), true)
    | none => (⟨c.target, false⟩, w, false)
  else (⟨c.target, false⟩, w, false)

/-- Body of `signal::emit`, parameterized by the drain loop it may start:
run the enqueue phase; if the shared `emitting` flag is already set this call
returns at once (the entries it queued are left for the loop already
running), otherwise set the flag and drain. -/
def emitWith (drain : World → Nat → Option World) (w : World) (i : Nat) (arg : Nat) :
    Option World :=
  let w1 := enqueuePhase w i
  if w1.emitting then some w1
  else drain { w1 with emitting := true } arg

/-- Execution of one callable's body, parameterized by the `emit` it may call
back into: perform its effects in order.  An error aborts the remaining
effects of this body and is reported in the Boolean (the drain loop's
`catch (...) {}` then discards it).  A nested `emit` runs the full `emit`
logic — inside a drain it only enqueues, because the shared flag is set. -/
def runActsWith (emit : World → Nat → Nat → Option World) (w : World)
    (acts : List SlotAction) : Option (World × Bool) :=
  match acts with
  | [] => some (w, false)
  | a :: rest =>
    match a with
    | .throwErr => some (w, true)
    | .disconnectId i id =>
        runActsWith emit (setInst w i (disconnect_by_id (getInst w i) id)) rest
    | .disconnectAllS i => runActsWith emit (disconnect_all w i) rest
    | .emitS i v =>
        match emit w i v with
        | none => none
        | some w2 => runActsWith emit w2 rest

/-- The `while(!slots_queue.empty())` loop of `signal::emit`: pop the front
wrapper and invoke its callable with THIS call's `args` (the queue stores no
arguments), catching whatever the callable raises; when the queue is empty,
clear the `emitting` flag.  An owner-bound wrapper whose owner has expired is
still popped, but its stored lambda finds `weak_object.lock()` empty and does
nothing.  Each iteration burns one unit of fuel; the callables it invokes may
call back into `emit`, which reuses this loop with the remaining fuel. -/
def drainF (env : Env) : Nat → World → Nat → Option World
  | 0, _, _ => none
  | Nat.succ fuel, w, arg =>
    match w.slots_queue with
    | [] => some { w with emitting := false }
    | wr :: rest =>
      let w1 := { w with slots_queue := rest }
      if expired w.alive wr then
        drainF env fuel w1 arg
      else
        let acts := env wr.cb arg (countCb w.trace wr.cb)
        let w2 := { w1 with trace := w1.trace ++ [(wr.cb, arg)] }
        match runActsWith (emitWith (drainF env fuel)) w2 acts with
        | none => none
        | some (w3, _err) => drainF env fuel w3 arg

/-- Mirror of `signal::emit` (and of `signal::operator()`, which just
forwards to it): the emit body wired to the drain loop with the given
fuel. -/
def emitF (env : Env) (fuel : Nat) : World → Nat → Nat → Option World :=
  emitWith (drainF env fuel)

/-- Repeated invocation of `connection::disconnect` on one connection:
`n` calls (the destructor being one more such call), threading the world and
counting how many times the disconnect action actually fired. -/
def conn_lifetime (c : Conn) (w : World) : Nat → Conn × World × Nat
  | 0 => (c, w, 0)
  | Nat.succ n =>
    let r := conn_lifetime c w n
    let r2 := conn_disconnect r.1 r.2.1
    (r2.1, r2.2.1, r.2.2 + (if r2.2.2 then 1 else 0))

/-- Memory-safety-aware variant of `conn_disconnect`.  The closure stored in
the connection by `signal::connect` is `[this, id](){ this->disconnect_by_id(id); }`
— it captures the raw `this` pointer of the signal.  `live` is the set of
signal instances that still exist; firing the closure dereferences `this`,
which is undefined behaviour (modelled as `none`) when the target instance
has already been destroyed.  The `connected` guard of
`connection::disconnect` is checked first, exactly as in the source, so an
already-disconnected or default-constructed connection never touches the
pointer. -/
def conn_disconnect_checked (live : List Nat) (c : Conn) (w : World) :
    Option (Conn × World × Bool) :=
  if c.connected then
    match c.target with
    | some (i, id) =>
        if live.contains i then
          some (⟨c.target, false⟩, setInst w i (disconnect_by_id (getInst w i) id), true)
        else none
    | none => some (⟨c.target, false⟩, w, false)
  else some (⟨c.target, false⟩, w, false)

/-- An action list that never calls back into `emit`. -/
def noEmitS (acts : List SlotAction) : Bool :=
  acts.all fun a =>
    match a with
    | .emitS _ _ => false
    | _ => true

/-- Truncate a callable's body at its first raised error: the behaviour of
the same callable if, instead of raising, it simply returned at that point. -/
def dropAfterThrow : List SlotAction → List SlotAction
  | [] => []
  | SlotAction.throwErr :: _ => []
  | a :: rest => a :: dropAfterThrow rest

/-- The environment in which every callable returns normally where it would
have raised. -/
def censorThrow (env : Env) : Env :=
  fun c a k => dropAfterThrow (env c a k)

/-- Relation between two worlds: every instance keeps its identifier counter
and its subscriber list only ever loses entries (no new wrapper appears). -/
def instFrame (w w' : World) : Prop :=
  ∀ j, (getInst w' j).next_id = (getInst w j).next_id ∧
    List.Sublist (getInst w' j).slots (getInst w j).slots

/-- What a callable's body can do to the world while a drain is running:
liveness, the reentrancy flag and the trace are untouched, subscriber lists
only shrink, and the shared queue only grows at the back, by wrappers that
were registered in some instance. -/
def stepFrame (w w' : World) : Prop :=
  w'.alive = w.alive ∧ w'.emitting = w.emitting ∧ w'.trace = w.trace ∧
  instFrame w w' ∧
  ∃ s, w'.slots_queue = w.slots_queue ++ s ∧
    ∀ wr ∈ s, ∃ j, wr ∈ (getInst w j).slots

/-- Callable key `c` is dead in `w`: every wrapper holding it, whether still
registered or already snapshotted into the shared queue, is expired; invoking
the wrapper therefore runs nothing. -/
def cbDead (w : World) (c : Nat) : Prop :=
  (∀ j, ∀ wr ∈ (getInst w j).slots, wr.cb = c → expired w.alive wr = true) ∧
  (∀ wr ∈ w.slots_queue, wr.cb = c → expired w.alive wr = true)

/-- Callable key `c` occurs nowhere in `w`: no registered wrapper and no
queued wrapper holds it. -/
def cbGone (w : World) (c : Nat) : Prop :=
  (∀ j, ∀ wr ∈ (getInst w j).slots, wr.cb ≠ c) ∧
  (∀ wr ∈ w.slots_queue, wr.cb ≠ c)

/-- An idle world with no signal instances. -/
def wEmpty : World := ⟨[], [], false, [], []⟩

/-- Reentrancy scenario of the spec, §8: one signal (instance 0) with two
slots `A` (callable 0) and `B` (callable 1); `A`, on its first invocation
only, calls `emit(2)` on the same signal. -/
def envC1 : Env := fun c _a k => if c = 0 ∧ k = 0 then [SlotAction.emitS 0 2] else []

/-- Initial world of the reentrancy scenario: instance 0 holds `A` (id 0)
and `B` (id 1), nothing queued, flag clear. -/
def w0C1 : World := ⟨[⟨[⟨0, none, 0⟩, ⟨1, none, 1⟩], 2⟩], [], false, [], []⟩

/-- Three slots on one signal; the middle one (callable 1) raises an error
when invoked. -/
def envC2 : Env := fun c _a _k => if c = 1 then [SlotAction.throwErr] else []

/-- Initial world for the registration-order scenario: instance 0 holds
callables 0, 1, 2 in that order. -/
def w0C2 : World := ⟨[⟨[⟨0, none, 0⟩, ⟨1, none, 1⟩, ⟨2, none, 2⟩], 3⟩], [], false, [], []⟩

/-- Cross-instance scenario of the spec, §8: signal X (instance 0) has slots
with callables 0 and 1; signal Y (instance 1) has one slot with callable 2;
X's first slot, on its first invocation only, calls `Y.emit(7)`. -/
def envC3 : Env := fun c _a k => if c = 0 ∧ k = 0 then [SlotAction.emitS 1 7] else []

/-- Initial world of the cross-instance scenario. -/
def w0C3 : World :=
  ⟨[⟨[⟨0, none, 0⟩, ⟨1, none, 1⟩], 2⟩, ⟨[⟨2, none, 0⟩], 1⟩], [], false, [], []⟩

/-- A slot that both re-emits and raises: callable 0, on its first
invocation, calls `emit(2)` and then raises an error. -/
def envC9 : Env :=
  fun c _a k => if c = 0 ∧ k = 0 then [SlotAction.emitS 0 2, SlotAction.throwErr] else []

/-- Initial world for the queue-reset scenario: same shape as `w0C1`. -/
def w0C9 : World := ⟨[⟨[⟨0, none, 0⟩, ⟨1, none, 1⟩], 2⟩], [], false, [], []⟩

/-- Result world of the queue-reset scenario run. -/
def wC9res : World := (emitF envC9 12 w0C9 0 1).getD wEmpty

/-- Result world of the registration-order scenario run. -/
def wC2res : World := (emitF envC2 10 w0C2 0 4).getD wEmpty

/-- A world with one (empty) signal instance, from which the C8 scenario
connects a slot and then destroys the signal. -/
def wC8 : World := ⟨[⟨[], 0⟩], [], false, [], []⟩

/-- World for the owner-expiry scenario: instance 0 holds one owner-bound
slot (callable 3, owner key 5) and one free slot (callable 4); the owner has
already been destroyed (`alive` is empty). -/
def w0C5 : World := ⟨[⟨[⟨3, some 5, 0⟩, ⟨4, none, 1⟩], 2⟩], [], false, [], []⟩

/-- World for the disconnect scenario: instance 0 holds callables 6 (id 0)
and 7 (id 1); we disconnect id 1. -/
def w0C6 : World := ⟨[⟨[⟨6, none, 0⟩, ⟨7, none, 1⟩], 2⟩], [], false, [], []⟩

/-- World for the identifier-monotonicity scenario: instance 0 has handed
out id 0 already (that slot is gone) and currently holds one slot with
id 1. -/
def w0C10 : World := ⟨[⟨[⟨8, none, 1⟩], 2⟩], [], false, [], []⟩

/-- Mid-drain world of the cross-instance scenario: X's first slot is being
invoked (its entry traced), X's second entry still queued, the flag set. -/
def wC3mid : World :=
  ⟨[⟨[⟨0, none, 0⟩, ⟨1, none, 1⟩], 2⟩, ⟨[⟨2, none, 0⟩], 1⟩], [⟨1, none, 1⟩], true, [],
    [(0, 5)]⟩

/-- An environment of slots that do nothing. -/
def envNop : Env := fun _c _a _k => []

/-- Result world of the owner-expiry scenario run. -/
def wC5res : World := (emitF envNop 10 w0C5 0 9).getD wEmpty

/-- Reading back a written instance: the write sticks exactly when the index
is in range and the position is the written one. -/
theorem getInst_setInst (w : World) (i j : Nat) (s : SigInst) :
    getInst (setInst w i s) j =
      if i = j ∧ i < w.instances.length then s else getInst w j := by
  unfold getInst setInst
  by_cases hij : i = j
  · subst hij
    by_cases hlen : i < w.instances.length
    · simp [List.getD_eq_getElem?_getD, List.getElem?_set_self hlen, hlen]
    · simp [List.set_eq_of_length_le (Nat.le_of_not_lt hlen), hlen]
  · simp [List.getD_eq_getElem?_getD, List.getElem?_set_ne hij, hij]

/-- Writing an instance does not touch the other world components. -/
theorem setInst_fields (w : World) (i : Nat) (s : SigInst) :
    (setInst w i s).slots_queue = w.slots_queue ∧
    (setInst w i s).emitting = w.emitting ∧
    (setInst w i s).alive = w.alive ∧
    (setInst w i s).trace = w.trace :=
  ⟨rfl, rfl, rfl, rfl⟩

/-- The enqueue phase keeps the flag, the liveness set and the trace. -/
theorem enqueuePhase_fields (w : World) (i : Nat) :
    (enqueuePhase w i).emitting = w.emitting ∧
    (enqueuePhase w i).alive = w.alive ∧
    (enqueuePhase w i).trace = w.trace ∧
    (enqueuePhase w i).slots_queue =
      w.slots_queue ++ (cleanup_expired w.alive (getInst w i)).slots ∧
    (enqueuePhase w i).instances =
      (setInst w i (cleanup_expired w.alive (getInst w i))).instances :=
  ⟨rfl, rfl, rfl, rfl, rfl⟩

/-- Instance frame: reflexivity. -/
theorem instFrame_refl (w : World) : instFrame w w :=
  fun _ => ⟨rfl, List.Sublist.refl _⟩

/-- Instance frame: transitivity. -/
theorem instFrame_trans {w1 w2 w3 : World} (h12 : instFrame w1 w2)
    (h23 : instFrame w2 w3) : instFrame w1 w3 := by
  intro j
  exact ⟨(h23 j).1.trans (h12 j).1, (h23 j).2.trans (h12 j).2⟩

/-- Writing back an instance whose counter is unchanged and whose slot list
is a sublist of the old one is an instance-frame step. -/
theorem instFrame_setInst (w : World) (i : Nat) (s : SigInst)
    (hid : s.next_id = (getInst w i).next_id)
    (hsub : List.Sublist s.slots (getInst w i).slots) :
    instFrame w (setInst w i s) := by
  intro j
  rw [getInst_setInst]
  by_cases h : i = j ∧ i < w.instances.length
  · rw [if_pos h]
    rcases h with ⟨hj, _⟩
    subst hj
    exact ⟨hid, hsub⟩
  · rw [if_neg h]
    exact ⟨rfl, List.Sublist.refl _⟩

/-- A world whose `instances` component is unchanged satisfies `instFrame`
against the original as soon as the instances agree. -/
theorem instFrame_of_instances_eq {w w' : World}
    (h : w'.instances = w.instances) : instFrame w w' := by
  intro j
  unfold getInst
  rw [h]
  exact ⟨rfl, List.Sublist.refl _⟩

/-- Step frame: reflexivity. -/
theorem stepFrame_refl (w : World) : stepFrame w w :=
  ⟨rfl, rfl, rfl, instFrame_refl w, [], (List.append_nil _).symm, by simp⟩

/-- Step frame: transitivity. -/
theorem stepFrame_trans {w1 w2 w3 : World} (h12 : stepFrame w1 w2)
    (h23 : stepFrame w2 w3) : stepFrame w1 w3 := by
  obtain ⟨ha12, he12, ht12, hf12, s12, hq12, ho12⟩ := h12
  obtain ⟨ha23, he23, ht23, hf23, s23, hq23, ho23⟩ := h23
  refine ⟨ha23.trans ha12, he23.trans he12, ht23.trans ht12,
    instFrame_trans hf12 hf23, s12 ++ s23, ?_, ?_⟩
  · rw [hq23, hq12, List.append_assoc]
  · intro wr hwr
    rcases List.mem_append.mp hwr with h | h
    · exact ho12 wr h
    · obtain ⟨j, hj⟩ := ho23 wr h
      exact ⟨j, ((hf12 j).2).subset hj⟩

/-- Disconnecting an id inside a callable body is a step-frame move. -/
theorem stepFrame_disconnectId (w : World) (i id : Nat) :
    stepFrame w (setInst w i (disconnect_by_id (getInst w i) id)) := by
  refine ⟨rfl, rfl, rfl, instFrame_setInst w i _ rfl (List.filter_sublist _), [],
    (List.append_nil _).symm, by simp⟩

/-- Clearing a subscriber list inside a callable body is a step-frame move. -/
theorem stepFrame_disconnectAll (w : World) (i : Nat) :
    stepFrame w (disconnect_all w i) := by
  refine ⟨rfl, rfl, rfl, instFrame_setInst w i _ rfl (List.nil_sublist _), [],
    (List.append_nil _).symm, by simp⟩

/-- The enqueue phase is a step-frame move: the pruned subscriber list is
written back, and its (pruned) snapshot is appended to the shared queue. -/
theorem stepFrame_enqueuePhase (w : World) (i : Nat) :
    stepFrame w (enqueuePhase w i) := by
  refine ⟨rfl, rfl, rfl, instFrame_setInst w i _ rfl (List.filter_sublist _),
    (cleanup_expired w.alive (getInst w i)).slots, rfl, ?_⟩
  intro wr hwr
  exact ⟨i, (List.filter_sublist _).subset hwr⟩

/-- While the shared reentrancy flag is set, a callable's body always runs to
the end of its effects (a nested `emit` merely enqueues and returns, because
`emitting` is already `true`), and everything it does is a step-frame move.
This holds for ANY drain loop `d` the nested `emit` is wired to, since the
loop is never entered. -/
theorem runActsWith_emitting (d : World → Nat → Option World) :
    ∀ (acts : List SlotAction) (w : World), w.emitting = true →
      ∃ w' e, runActsWith (emitWith d) w acts = some (w', e) ∧ stepFrame w w' := by
  intro acts
  induction acts with
  | nil =>
    intro w _
    exact ⟨w, false, rfl, stepFrame_refl w⟩
  | cons a rest ih =>
    intro w hw
    cases a with
    | throwErr => exact ⟨w, true, rfl, stepFrame_refl w⟩
    | disconnectId i id =>
      obtain ⟨w', e, heq, hstep⟩ :=
        ih (setInst w i (disconnect_by_id (getInst w i) id)) hw
      exact ⟨w', e, heq, stepFrame_trans (stepFrame_disconnectId w i id) hstep⟩
    | disconnectAllS i =>
      obtain ⟨w', e, heq, hstep⟩ := ih (disconnect_all w i) hw
      exact ⟨w', e, heq, stepFrame_trans (stepFrame_disconnectAll w i) hstep⟩
    | emitS i v =>
      have hem : (enqueuePhase w i).emitting = true := hw
      obtain ⟨w', e, heq, hstep⟩ := ih (enqueuePhase w i) hem
      refine ⟨w', e, ?_, stepFrame_trans (stepFrame_enqueuePhase w i) hstep⟩
      simp only [runActsWith, emitWith, hem, if_pos]
      exact heq

/-- Master description of one run of the dispatch loop, by induction on the
fuel: liveness is untouched, the loop ends with the flag clear and the queue
empty, subscriber lists only shrink and counters stay put, and the trace
grows by exactly the invocations of the loop — every new entry carries THIS
loop's argument and stems from a non-expired wrapper that was queued or
registered when the loop started, and conversely every non-expired wrapper
queued at loop start is invoked. -/
theorem drainF_master (env : Env) :
    ∀ (fuel : Nat) (w : World) (arg : Nat) (w' : World),
      w.emitting = true → drainF env fuel w arg = some w' →
      w'.alive = w.alive ∧ w'.emitting = false ∧ w'.slots_queue = [] ∧ instFrame w w' ∧
      ∃ t, w'.trace = w.trace ++ t ∧
        (∀ p ∈ t, p.2 = arg ∧ ∃ wr, p.1 = wr.cb ∧ expired w.alive wr = false ∧
          (wr ∈ w.slots_queue ∨ ∃ j, wr ∈ (getInst w j).slots)) ∧
        (∀ wr ∈ w.slots_queue, expired w.alive wr = false → (wr.cb, arg) ∈ t) := by
  intro fuel
  induction fuel with
  | zero => intro w arg w' _ h; simp [drainF] at h
  | succ f ih =>
    intro w arg w' hw h
    rw [drainF] at h
    cases hq : w.slots_queue with
    | nil =>
      simp only [hq] at h
      obtain rfl := Option.some.inj h
      exact ⟨rfl, rfl, rfl, instFrame_of_instances_eq rfl, [], by simp, by simp, by simp⟩
    | cons wr rest =>
      simp only [hq] at h
      cases hex : expired w.alive wr with
      | true =>
        simp only [hex, if_pos] at h
        obtain ⟨ha, hem, hqe, hif, t, htr, hor, hcomp⟩ :=
          ih { instances := w.instances, slots_queue := rest, emitting := w.emitting,
               alive := w.alive, trace := w.trace } arg w' hw h
        refine ⟨ha, hem, hqe, hif, t, htr, ?_, ?_⟩
        · intro p hp
          obtain ⟨hparg, wr1, hcb, hexp, horr⟩ := hor p hp
          refine ⟨hparg, wr1, hcb, hexp, ?_⟩
          rcases horr with hmem | hmem
          · exact Or.inl (List.mem_cons_of_mem _ hmem)
          · exact Or.inr hmem
        · intro wr1 hmem hexp
          rcases List.mem_cons.mp hmem with rfl | hmem
          · simp [hexp] at hex
          · exact hcomp wr1 hmem hexp
      | false =>
        simp only [hex, Bool.false_eq_true, if_false] at h
        obtain ⟨w3, e, heq, hstep⟩ :=
          runActsWith_emitting (drainF env f)
            (env wr.cb arg (countCb w.trace wr.cb))
            { instances := w.instances, slots_queue := rest, emitting := w.emitting,
              alive := w.alive, trace := w.trace ++ [(wr.cb, arg)] } hw
        rw [heq] at h
        obtain ⟨ha3, he3, ht3, hf3, s, hq3, horig⟩ := hstep
        have hem3 : w3.emitting = true := by rw [he3]; exact hw
        obtain ⟨ha, hem, hqe, hif, t3, htr, hor, hcomp⟩ := ih w3 arg w' hem3 h
        refine ⟨?_, hem, hqe, instFrame_trans hf3 hif, (wr.cb, arg) :: t3, ?_, ?_, ?_⟩
        · rw [ha, ha3]
        · rw [htr, ht3]
          simp
        · intro p hp
          rcases List.mem_cons.mp hp with rfl | hp
          · exact ⟨rfl, wr, rfl, hex, Or.inl (List.mem_cons_self _ _)⟩
          · obtain ⟨hparg, wr1, hcb, hexp, horr⟩ := hor p hp
            refine ⟨hparg, wr1, hcb, ?_, ?_⟩
            · rw [ha3] at hexp
              exact hexp
            · rcases horr with hmem | ⟨j, hmem⟩
              · rw [hq3] at hmem
                rcases List.mem_append.mp hmem with hm | hm
                · exact Or.inl (List.mem_cons_of_mem _ hm)
                · obtain ⟨j, hj⟩ := horig wr1 hm
                  exact Or.inr ⟨j, hj⟩
              · exact Or.inr ⟨j, ((hf3 j).2).subset hmem⟩
        · intro wr1 hmem hexp
          rcases List.mem_cons.mp hmem with rfl | hmem
          · exact List.mem_cons_self _ _
          · have hm3 : wr1 ∈ w3.slots_queue := by
              rw [hq3]
              exact List.mem_append_left _ hmem
            have hexp3 : expired w3.alive wr1 = false := by
              rw [ha3]
              exact hexp
            exact List.mem_cons_of_mem _ (hcomp wr1 hm3 hexp3)

/-- Reading an instance of the enqueue-phase world: instance `i` has been
pruned, the others are untouched. -/
theorem getInst_enqueuePhase (w : World) (i j : Nat) :
    getInst (enqueuePhase w i) j =
      if i = j ∧ i < w.instances.length then cleanup_expired w.alive (getInst w i)
      else getInst w j :=
  getInst_setInst w i j _

/-- The enqueue phase preserves deadness of a callable key: pruning and
snapshotting never revive a wrapper, and every wrapper it appends to the
queue comes from a subscriber list. -/
theorem cbDead_enqueuePhase (w : World) (i c : Nat) (hc : cbDead w c) :
    cbDead (enqueuePhase w i) c := by
  obtain ⟨hslots, hqueue⟩ := hc
  constructor
  · intro j wr hwr hcb
    rw [getInst_enqueuePhase] at hwr
    by_cases hcase : i = j ∧ i < w.instances.length
    · rw [if_pos hcase] at hwr
      have hin : wr ∈ (getInst w i).slots := (List.mem_filter.mp hwr).1
      exact hslots i wr hin hcb
    · rw [if_neg hcase] at hwr
      exact hslots j wr hwr hcb
  · intro wr hwr hcb
    have hwr2 : wr ∈ w.slots_queue ++ (cleanup_expired w.alive (getInst w i)).slots := hwr
    rcases List.mem_append.mp hwr2 with hm | hm
    · exact hqueue wr hm hcb
    · exact hslots i wr (List.mem_filter.mp hm).1 hcb

/-- The enqueue phase preserves absence of a callable key. -/
theorem cbGone_enqueuePhase (w : World) (i c : Nat) (hg : cbGone w c) :
    cbGone (enqueuePhase w i) c := by
  obtain ⟨hslots, hqueue⟩ := hg
  constructor
  · intro j wr hwr
    rw [getInst_enqueuePhase] at hwr
    by_cases hcase : i = j ∧ i < w.instances.length
    · rw [if_pos hcase] at hwr
      exact hslots i wr (List.mem_filter.mp hwr).1
    · rw [if_neg hcase] at hwr
      exact hslots j wr hwr
  · intro wr hwr
    have hwr2 : wr ∈ w.slots_queue ++ (cleanup_expired w.alive (getInst w i)).slots := hwr
    rcases List.mem_append.mp hwr2 with hm | hm
    · exact hqueue wr hm
    · exact hslots i wr (List.mem_filter.mp hm).1

/-- One `emit` call, whatever the flag state: owner liveness is untouched,
identifier counters are kept, and subscriber lists only lose entries. -/
theorem emitF_frame (env : Env) (fuel : Nat) (w : World) (i a : Nat) (w' : World)
    (h : emitF env fuel w i a = some w') :
    w'.alive = w.alive ∧ instFrame w w' := by
  simp only [emitF, emitWith] at h
  have hframe : instFrame w (enqueuePhase w i) :=
    instFrame_setInst w i _ rfl (List.filter_sublist _)
  by_cases hem : (enqueuePhase w i).emitting = true
  · rw [if_pos hem] at h
    obtain rfl := Option.some.inj h
    exact ⟨rfl, hframe⟩
  · rw [if_neg hem] at h
    obtain ⟨ha, _, _, hif, _⟩ :=
      drainF_master env fuel { enqueuePhase w i with emitting := true } a w' rfl h
    exact ⟨ha, instFrame_trans hframe hif⟩

/-- If a callable key is dead — every wrapper holding it is expired — then an
`emit` never invokes it (the trace gains no entry for it), and the key stays
dead afterwards, so the same holds of every later `emit`. -/
theorem emitF_cbDead (env : Env) (fuel : Nat) (w : World) (i a c : Nat) (w' : World)
    (hc : cbDead w c) (h : emitF env fuel w i a = some w') :
    w'.trace.filter (fun p => decide (p.1 = c)) =
      w.trace.filter (fun p => decide (p.1 = c)) ∧ cbDead w' c := by
  simp only [emitF, emitWith] at h
  have hd := cbDead_enqueuePhase w i c hc
  by_cases hem : (enqueuePhase w i).emitting = true
  · rw [if_pos hem] at h
    obtain rfl := Option.some.inj h
    exact ⟨rfl, hd⟩
  · rw [if_neg hem] at h
    obtain ⟨ha, hemf, hqe, hif, t, htr, hor, _⟩ :=
      drainF_master env fuel { enqueuePhase w i with emitting := true } a w' rfl h
    have htc : ∀ p ∈ t, ¬ (p.1 = c) := by
      intro p hp hpc
      obtain ⟨_, wr, hcb, hexp, horr⟩ := hor p hp
      have hwc : wr.cb = c := by rw [← hcb, hpc]
      have hexp2 : expired w.alive wr = false := hexp
      rcases horr with hmem | ⟨j, hmem⟩
      · have h2 : expired w.alive wr = true := hd.2 wr hmem hwc
        have := h2.symm.trans hexp2
        simp at this
      · have h2 : expired w.alive wr = true := hd.1 j wr hmem hwc
        have := h2.symm.trans hexp2
        simp at this
    constructor
    · have htr2 : w'.trace = w.trace ++ t := htr
      rw [htr2, List.filter_append]
      have hnil : t.filter (fun p => decide (p.1 = c)) = [] :=
        List.filter_eq_nil_iff.mpr (by intro p hp; simpa using htc p hp)
      rw [hnil, List.append_nil]
    · constructor
      · intro j wr hwr hcb2
        have hsub : wr ∈ (getInst (enqueuePhase w i) j).slots := (hif j).2.subset hwr
        have h2 : expired w.alive wr = true := hd.1 j wr hsub hcb2
        have ha2 : w'.alive = w.alive := ha
        rw [ha2]
        exact h2
      · intro wr hwr
        rw [hqe] at hwr
        cases hwr

/-- If no wrapper anywhere holds a callable key, an `emit` never invokes it
and no wrapper holding it appears afterwards either. -/
theorem emitF_cbGone (env : Env) (fuel : Nat) (w : World) (i a c : Nat) (w' : World)
    (hg : cbGone w c) (h : emitF env fuel w i a = some w') :
    w'.trace.filter (fun p => decide (p.1 = c)) =
      w.trace.filter (fun p => decide (p.1 = c)) ∧ cbGone w' c := by
  have hdead : cbDead w c := by
    refine ⟨fun j wr hwr hcb => absurd hcb (hg.1 j wr hwr),
      fun wr hwr hcb => absurd hcb (hg.2 wr hwr)⟩
  obtain ⟨hfilter, _⟩ := emitF_cbDead env fuel w i a c w' hdead h
  refine ⟨hfilter, ?_, ?_⟩
  · intro j wr hwr
    obtain ⟨_, hif⟩ := emitF_frame env fuel w i a w' h
    exact hg.1 j wr ((hif j).2.subset hwr)
  · -- the queue after the emit: empty if it drained, otherwise the old
    -- queue plus snapshots, none of which holds the key
    intro wr hwr
    simp only [emitF, emitWith] at h
    by_cases hem : (enqueuePhase w i).emitting = true
    · rw [if_pos hem] at h
      obtain rfl := Option.some.inj h
      exact (cbGone_enqueuePhase w i c hg).2 wr hwr
    · rw [if_neg hem] at h
      obtain ⟨_, _, hqe, _⟩ :=
        drainF_master env fuel { enqueuePhase w i with emitting := true } a w' rfl h
      rw [hqe] at hwr
      cases hwr

/-- A callable body with no nested `emit` succeeds, touches neither the
shared queue nor the trace nor liveness nor the flag, and only shrinks
subscriber lists.  This holds for any wired-in `emit`. -/
theorem runActsWith_noemit (emit : World → Nat → Nat → Option World) :
    ∀ (acts : List SlotAction) (w : World), noEmitS acts = true →
      ∃ w' e, runActsWith emit w acts = some (w', e) ∧
        w'.slots_queue = w.slots_queue ∧ w'.trace = w.trace ∧
        w'.alive = w.alive ∧ w'.emitting = w.emitting := by
  intro acts
  induction acts with
  | nil => intro w _; exact ⟨w, false, rfl, rfl, rfl, rfl, rfl⟩
  | cons a rest ih =>
    intro w hne
    cases a with
    | emitS i v => simp [noEmitS] at hne
    | throwErr => exact ⟨w, true, rfl, rfl, rfl, rfl, rfl⟩
    | disconnectId i id =>
      have hnr : noEmitS rest = true := by simpa [noEmitS] using hne
      obtain ⟨w', e, heq, hq, ht, ha, hm⟩ :=
        ih (setInst w i (disconnect_by_id (getInst w i) id)) hnr
      exact ⟨w', e, heq, hq, ht, ha, hm⟩
    | disconnectAllS i =>
      have hnr : noEmitS rest = true := by simpa [noEmitS] using hne
      obtain ⟨w', e, heq, hq, ht, ha, hm⟩ := ih (disconnect_all w i) hnr
      exact ⟨w', e, heq, hq, ht, ha, hm⟩

/-- Dispatch with no reentrancy: when no callable re-emits, the loop invokes
exactly the queued wrappers whose owner is still alive, front to back, each
with the loop's argument, and stops with the queue empty and the flag
clear. -/
theorem drainF_noemit (env : Env) (henv : ∀ c x k, noEmitS (env c x k) = true) :
    ∀ (fuel : Nat) (w : World) (arg : Nat), w.slots_queue.length < fuel →
      ∃ w', drainF env fuel w arg = some w' ∧
        w'.trace = w.trace ++
          (w.slots_queue.filter (fun wr => !(expired w.alive wr))).map
            (fun wr => (wr.cb, arg)) ∧
        w'.emitting = false ∧ w'.slots_queue = [] ∧ w'.alive = w.alive := by
  intro fuel
  induction fuel with
  | zero => intro w arg hlen; cases hlen
  | succ f ih =>
    intro w arg hlen
    rw [drainF]
    cases hq : w.slots_queue with
    | nil =>
      exact ⟨{ w with slots_queue := [], emitting := false }, rfl, by simp, rfl, rfl, rfl⟩
    | cons wr rest =>
      rw [hq] at hlen
      have hlen2 : rest.length < f := Nat.lt_of_succ_lt_succ hlen
      cases hex : expired w.alive wr with
      | true =>
        simp only [hex, if_pos]
        obtain ⟨w', heq, htr, hem, hqe, ha⟩ :=
          ih { w with slots_queue := rest } arg hlen2
        exact ⟨w', heq, by simpa [List.filter_cons, hex] using htr, hem, hqe, ha⟩
      | false =>
        simp only [hex, Bool.false_eq_true, if_false]
        obtain ⟨w3, e, heq, hq3, ht3, ha3, hm3⟩ :=
          runActsWith_noemit (emitWith (drainF env f))
            (env wr.cb arg (countCb w.trace wr.cb))
            { instances := w.instances, slots_queue := rest, emitting := w.emitting,
              alive := w.alive, trace := w.trace ++ [(wr.cb, arg)] }
            (henv wr.cb arg (countCb w.trace wr.cb))
        rw [heq]
        have hq3len : w3.slots_queue.length < f := by
          rw [hq3]
          exact hlen2
        obtain ⟨w', heq', htr', hem', hqe', ha'⟩ := ih w3 arg hq3len
        refine ⟨w', heq', ?_, hem', hqe', by rw [ha', ha3]⟩
        rw [htr', ht3, hq3, ha3]
        simp [hex, List.filter_cons]
  

/-- C2: for all N ≥ 0 registered live slots, a single non-reentrant call to
`emit` — the shared flag clear, the shared queue idle, and no slot calling
back into `emit` — invokes each live slot exactly once, with the emitted
argument, in registration order, and invokes nothing else: the trace grows by
exactly the pruned subscriber list of the emitting instance, in order, paired
with the argument. -/
theorem single_emit_registration_order (env : Env) (fuel : Nat) (w : World) (i arg : Nat)
    (henv : ∀ c x k, noEmitS (env c x k) = true)
    (hflag : w.emitting = false) (hqueue : w.slots_queue = [])
    (hfuel : (cleanup_expired w.alive (getInst w i)).slots.length < fuel) :
    ∃ w', emitF env fuel w i arg = some w' ∧
      w'.trace = w.trace ++
        (cleanup_expired w.alive (getInst w i)).slots.map (fun wr => (wr.cb, arg)) := by
  simp only [emitF, emitWith]
  have hem : (enqueuePhase w i).emitting = false := hflag
  rw [if_neg (by simp [hem])]
  obtain ⟨w', heq, htr, _, _, _⟩ := drainF_noemit env henv fuel
    { enqueuePhase w i with emitting := true } arg (by
      show (w.slots_queue ++ (cleanup_expired w.alive (getInst w i)).slots).length < fuel
      rw [hqueue, List.nil_append]
      exact hfuel)
  refine ⟨w', heq, ?_⟩
  rw [htr]
  show w.trace ++
      (((w.slots_queue ++ (cleanup_expired w.alive (getInst w i)).slots).filter
        (fun wr => !(expired w.alive wr))).map (fun wr => (wr.cb, arg))) =
    w.trace ++ (cleanup_expired w.alive (getInst w i)).slots.map (fun wr => (wr.cb, arg))
  have hfix : List.filter (fun wr => !(expired w.alive wr))
      (cleanup_expired w.alive (getInst w i)).slots =
      (cleanup_expired w.alive (getInst w i)).slots :=
    List.filter_eq_self.mpr (fun wr hwr => (List.mem_filter.mp hwr).2)
  rw [hqueue, List.nil_append, hfix]

/-- Witness for the registration-order theorem: three slots, the middle one
raising an error, all invoked once in order with the emitted value. -/
theorem single_emit_registration_order_witness :
    ∃ w', emitF envC2 10 w0C2 0 4 = some w' ∧
      w'.trace = w0C2.trace ++
        (cleanup_expired w0C2.alive (getInst w0C2 0)).slots.map (fun wr => (wr.cb, 4)) :=
  single_emit_registration_order envC2 10 w0C2 0 4
    (fun c x k => by unfold envC2 noEmitS; split <;> decide) rfl rfl (by decide)

/-- C9: a top-level `emit` — one that finds the shared reentrancy flag
clear — always hands back a world whose shared queue is empty and whose flag
is clear again, whatever the slots did (raise, re-emit, disconnect), so no
queued entry is ever carried over into a later, unrelated emission. -/
theorem top_level_emit_resets_shared_state (env : Env) (fuel : Nat) (w : World)
    (i arg : Nat) (w' : World) (hflag : w.emitting = false)
    (h : emitF env fuel w i arg = some w') :
    w'.slots_queue = [] ∧ w'.emitting = false := by
  simp only [emitF, emitWith] at h
  have hem : (enqueuePhase w i).emitting = false := hflag
  rw [if_neg (by simp [hem])] at h
  obtain ⟨_, hemf, hqe, _⟩ :=
    drainF_master env fuel { enqueuePhase w i with emitting := true } arg w' rfl h
  exact ⟨hqe, hemf⟩

/-- Witness for the queue-reset theorem: a slot that re-emits and raises
still leaves the queue empty and the flag clear. -/
theorem top_level_emit_resets_shared_state_witness :
    wC9res.slots_queue = [] ∧ wC9res.emitting = false :=
  top_level_emit_resets_shared_state envC9 12 w0C9 0 1 wC9res rfl (by decide)

/-- Truncating a callable's body at its first raised error changes nothing
but the reported error bit: while the flag is set, running the truncated body
reaches the same world as running the raising body. -/
theorem runActsWith_dropAfterThrow (d1 d2 : World → Nat → Option World) :
    ∀ (acts : List SlotAction) (w : World), w.emitting = true →
      (runActsWith (emitWith d1) w acts).map Prod.fst =
        (runActsWith (emitWith d2) w (dropAfterThrow acts)).map Prod.fst := by
  intro acts
  induction acts with
  | nil => intro w _; rfl
  | cons a rest ih =>
    intro w hw
    cases a with
    | throwErr => rfl
    | disconnectId i id => exact ih (setInst w i (disconnect_by_id (getInst w i) id)) hw
    | disconnectAllS i => exact ih (disconnect_all w i) hw
    | emitS i v =>
      have hem : (enqueuePhase w i).emitting = true := hw
      have h1 : emitWith d1 w i v = some (enqueuePhase w i) := by
        unfold emitWith
        rw [if_pos hem]
      have h2 : emitWith d2 w i v = some (enqueuePhase w i) := by
        unfold emitWith
        rw [if_pos hem]
      show ((match emitWith d1 w i v with
          | none => none
          | some w2 => runActsWith (emitWith d1) w2 rest)).map Prod.fst =
        ((match emitWith d2 w i v with
          | none => none
          | some w2 => runActsWith (emitWith d2) w2 (dropAfterThrow rest))).map Prod.fst
      rw [h1, h2]
      exact ih (enqueuePhase w i) hem

/-- The dispatch loop cannot distinguish a raising callable from one that
returns early: the whole drain is equal under error truncation. -/
theorem drainF_censorThrow (env : Env) :
    ∀ (fuel : Nat) (w : World) (arg : Nat), w.emitting = true →
      drainF env fuel w arg = drainF (censorThrow env) fuel w arg := by
  intro fuel
  induction fuel with
  | zero => intro w arg _; rfl
  | succ f ih =>
    intro w arg hw
    rw [drainF, drainF]
    cases hq : w.slots_queue with
    | nil => rfl
    | cons wr rest =>
      simp only [hq]
      cases hex : expired w.alive wr with
      | true =>
        simp only [hex, if_pos]
        exact ih { w with slots_queue := rest } arg hw
      | false =>
        simp only [hex, Bool.false_eq_true, if_false, censorThrow]
        have hcmp := runActsWith_dropAfterThrow (drainF env f) (drainF (censorThrow env) f)
          (env wr.cb arg (countCb w.trace wr.cb))
          { instances := w.instances, slots_queue := rest, emitting := w.emitting,
            alive := w.alive, trace := w.trace ++ [(wr.cb, arg)] } hw
        obtain ⟨wx, ex, hex2, hstep⟩ := runActsWith_emitting (drainF env f)
          (env wr.cb arg (countCb w.trace wr.cb))
          { instances := w.instances, slots_queue := rest, emitting := w.emitting,
            alive := w.alive, trace := w.trace ++ [(wr.cb, arg)] } hw
        rw [hex2] at hcmp ⊢
        cases hr2 : runActsWith (emitWith (drainF (censorThrow env) f))
            { instances := w.instances, slots_queue := rest, emitting := w.emitting,
              alive := w.alive, trace := w.trace ++ [(wr.cb, arg)] }
            (dropAfterThrow (env wr.cb arg (countCb w.trace wr.cb))) with
        | none =>
          rw [hr2] at hcmp
          simp at hcmp
        | some p2 =>
          rw [hr2] at hcmp
          obtain ⟨w3b, e2⟩ := p2
          simp at hcmp
          have hwx : wx.emitting = true := by
            rw [hstep.2.1]
            exact hw
          rw [hcmp] at hwx ⊢
          exact ih w3b arg hwx

/-- C4: any error raised by any slot's callable is caught inside the
dispatch loop and discarded.  Formally, an emission with raising callables is
EQUAL to the emission in which each raising callable simply returns at its
raise point (`censorThrow` truncates every body at its first raised error):
the error never escapes `emit` to the caller, the loop proceeds to the next
queued entry exactly as if nothing was raised, and every later queued slot —
in this emission and, the final worlds being identical, in every later one —
still runs. -/
theorem slot_errors_swallowed (env : Env) (fuel : Nat) (w : World) (i arg : Nat) :
    emitF env fuel w i arg = emitF (censorThrow env) fuel w i arg := by
  simp only [emitF, emitWith]
  by_cases hem : (enqueuePhase w i).emitting = true
  · rw [if_pos hem, if_pos hem]
  · rw [if_neg hem, if_neg hem]
    exact drainF_censorThrow env fuel { enqueuePhase w i with emitting := true } arg rfl

/-- C1 (failing evaluation): the spec's reentrancy scenario — slots `A`
(callable 0) and `B` (callable 1) on one signal, `A` calling `S.emit(2)` from
inside its first invocation while `S.emit(1)` drains.  The code yields the
invocation order `A(1), B(1), A(1), B(1)`: the nested call's wrappers are
appended to the queue and drained by the already-running outer loop, but the
loop invokes every popped wrapper with ITS OWN argument
(`wrapper->slot(args...)` — `slots_queue` stores wrappers, not arguments), so
the nested call's argument `2` is lost; the order is NOT the claimed
`A(1), B(1), A(2), B(2)`. -/
theorem nested_emission_args_lost :
    (emitF envC1 12 w0C1 0 1).map World.trace =
      some [(0, 1), (1, 1), (0, 1), (1, 1)] ∧
    (emitF envC1 12 w0C1 0 1).map World.trace ≠
      some [(0, 1), (1, 1), (0, 2), (1, 2)] := by
  decide

/-- C3: while any emission of the signature is draining (the shared flag is
set), `emit` on any signal instance `y` only appends `y`'s pruned snapshot to
the one shared queue and returns without dispatching anything itself; the
appended entries are then invoked by the already-running drain loop.  The
closed scenario conjunct runs it end to end: X (instance 0, callables 0, 1)
emits 5, its first slot calls `Y.emit 7` (Y = instance 1, callable 2), and
Y's entry runs inside X's single top-level emit, after X's remaining
entry. -/
theorem cross_instance_shared_queue (env : Env) (fuel : Nat) (w : World) (y v : Nat)
    (hemit : w.emitting = true) :
    emitF env fuel w y v = some (enqueuePhase w y) ∧
    (enqueuePhase w y).slots_queue =
      w.slots_queue ++ (cleanup_expired w.alive (getInst w y)).slots ∧
    (emitF envC3 12 w0C3 0 5).map World.trace = some [(0, 5), (1, 5), (2, 5)] := by
  refine ⟨?_, rfl, by decide⟩
  simp only [emitF, emitWith]
  rw [if_pos (show (enqueuePhase w y).emitting = true from hemit)]

/-- Witness for the cross-instance theorem, applied at the exact mid-drain
world of the scenario. -/
theorem cross_instance_shared_queue_witness :
    emitF envC3 12 wC3mid 1 7 = some (enqueuePhase wC3mid 1) ∧
    (enqueuePhase wC3mid 1).slots_queue =
      wC3mid.slots_queue ++ (cleanup_expired wC3mid.alive (getInst wC3mid 1)).slots ∧
    (emitF envC3 12 w0C3 0 5).map World.trace = some [(0, 5), (1, 5), (2, 5)] :=
  cross_instance_shared_queue envC3 12 wC3mid 1 7 rfl

/-- Disconnecting always returns the connection with its flag cleared,
whatever else it does. -/
theorem conn_disconnect_flag (c : Conn) (w : World) :
    (conn_disconnect c w).1 = ⟨c.target, false⟩ := by
  unfold conn_disconnect
  by_cases hc : c.connected = true
  · rw [if_pos hc]
    cases ht : c.target with
    | none => rfl
    | some t =>
      obtain ⟨i, id⟩ := t
      rfl
  · rw [if_neg hc]

/-- Disconnecting an already-disconnected connection is a complete no-op that
fires nothing. -/
theorem conn_disconnect_inert (c : Conn) (w : World) (hc : c.connected = false) :
    conn_disconnect c w = (⟨c.target, false⟩, w, false) := by
  unfold conn_disconnect
  rw [hc]
  simp

/-- Invariant behind C7: across any number of disconnect calls, the action
fires at most once, and from the first call on the connection is inert. -/
theorem conn_lifetime_state (c : Conn) (w : World) :
    ∀ n, (conn_lifetime c w n).2.2 ≤ 1 ∧
      ((conn_lifetime c w n).1.connected = false ∨ conn_lifetime c w n = (c, w, 0)) := by
  intro n
  induction n with
  | zero => exact ⟨Nat.zero_le 1, Or.inr rfl⟩
  | succ m ih =>
    obtain ⟨hcnt, hstate⟩ := ih
    constructor
    · show (conn_lifetime c w m).2.2 +
        (if (conn_disconnect (conn_lifetime c w m).1 (conn_lifetime c w m).2.1).2.2
          then 1 else 0) ≤ 1
      rcases hstate with hfalse | heq
      · rw [conn_disconnect_inert _ _ hfalse]
        simpa using hcnt
      · rw [heq]
        split <;> simp
    · left
      show (conn_disconnect (conn_lifetime c w m).1 (conn_lifetime c w m).2.1).1.connected
        = false
      rw [conn_disconnect_flag]

/-- C7: over a Connection's whole lifetime — however many times
`disconnect()` is called, the destructor being one more such call — the bound
disconnect action fires at most once; and a default-constructed Connection's
`disconnect()` is a safe no-op that removes nothing. -/
theorem connection_disconnect_idempotent (c : Conn) (w : World) (n : Nat) :
    (conn_lifetime c w n).2.2 ≤ 1 ∧
    conn_disconnect ⟨none, true⟩ w = (⟨none, false⟩, w, false) :=
  ⟨(conn_lifetime_state c w n).1, rfl⟩

/-- Any successful checked disconnect hands back an inert connection. -/
theorem conn_disconnect_checked_flag (live : List Nat) (c : Conn) (w : World)
    (r : Conn × World × Bool) (h : conn_disconnect_checked live c w = some r) :
    r.1 = ⟨c.target, false⟩ := by
  unfold conn_disconnect_checked at h
  by_cases hc : c.connected = true
  · rw [if_pos hc] at h
    cases ht : c.target with
    | none =>
      simp only [ht] at h
      obtain rfl := Option.some.inj h
      rfl
    | some t =>
      obtain ⟨i, d⟩ := t
      simp only [ht] at h
      by_cases hl : live.contains i = true
      · rw [if_pos hl] at h
        obtain rfl := Option.some.inj h
        rfl
      · rw [if_neg hl] at h
        cases h
  · rw [if_neg hc] at h
    obtain rfl := Option.some.inj h
    rfl

/-- C8 (counterexample): the disconnect action is NOT a self-contained
closure — `signal::connect` builds it as
`[this, id](){ this->disconnect_by_id(id); }`, capturing the raw signal
pointer.  Connect a slot, destroy the signal (no live instances are left),
then call `disconnect()`: the action dereferences the destroyed signal,
which is undefined behaviour (`none`), so the claim that this is safe from
any code path after the Signal's destruction is false. -/
theorem connection_unsafe_after_signal_destroyed :
    conn_disconnect_checked [] (connect wC8 0 5).2 (connect wC8 0 5).1 = none := by
  decide

/-- C8 (amended): `disconnect()` is idempotent and safe to call any number
of times — on a default-constructed Connection, on any already-disconnected
Connection, and on a live Connection whose Signal still exists; and once a
disconnect has happened, every further `disconnect()` is safe anywhere, even
after the Signal is destroyed.  What does NOT hold is safety of the FIRST
disconnect after the Signal's destruction, since the action holds a pointer
into the Signal (see the counterexample). -/
theorem connection_disconnect_safety (live live2 : List Nat) (c : Conn) (w w2 : World)
    (i d : Nat) :
    conn_disconnect_checked live ⟨none, true⟩ w = some (⟨none, false⟩, w, false) ∧
    (c.connected = false →
      conn_disconnect_checked live c w = some (⟨c.target, false⟩, w, false)) ∧
    (c.target = some (i, d) → c.connected = true → live.contains i = true →
      conn_disconnect_checked live c w =
        some (⟨c.target, false⟩, setInst w i (disconnect_by_id (getInst w i) d), true)) ∧
    (∀ r, conn_disconnect_checked live c w = some r →
      conn_disconnect_checked live2 r.1 w2 = some (⟨r.1.target, false⟩, w2, false)) := by
  refine ⟨rfl, ?_, ?_, ?_⟩
  · intro hc
    unfold conn_disconnect_checked
    rw [hc]
    simp
  · intro ht hc hl
    unfold conn_disconnect_checked
    rw [if_pos hc]
    simp only [ht]
    rw [if_pos hl]
  · intro r hr
    have hflag := conn_disconnect_checked_flag live c w r hr
    unfold conn_disconnect_checked
    rw [hflag]
    simp

/-- Witness for the amended C8 theorem: a freshly connected slot on a live
signal disconnects successfully. -/
theorem connection_disconnect_safety_witness :
    conn_disconnect_checked [0] (connect wC8 0 5).2 (connect wC8 0 5).1 =
      some (⟨some (0, 0), false⟩,
        setInst (connect wC8 0 5).1 0 (disconnect_by_id (getInst (connect wC8 0 5).1 0) 0),
        true) :=
  (connection_disconnect_safety [0] [] (connect wC8 0 5).2 (connect wC8 0 5).1 wEmpty
    0 0).2.2.1 (by decide) (by decide) (by decide)

/-- C5: an owner-bound slot whose owner has been destroyed is never invoked
by any subsequent `emit`, and its entry is removed only by the pruning pass
of the next `connect`, `emit` or `slot_count`, never at the instant of the
owner's destruction.  Formally: (1) when every wrapper holding callable `c`
is expired (`cbDead`, the state after its owner died), an emission adds no
`c` entry to the trace and preserves `cbDead`, so no later emission invokes
it either; (2) destroying an owner changes no signal instance — the entry is
still physically present; (3) the wrapper is expired from then on, every
`cleanup_expired` pass (run at the start of `connect`, `emit` and
`slot_count`) drops it, and `slot_count` reports exactly the non-expired
entries. -/
theorem owner_destroyed_lazy_removal (env : Env) (fuel : Nat) (w w' : World)
    (i a o c : Nat) (wr : SlotWrapper)
    (hwr : wr.weak_ref_opt = some o)
    (hc : cbDead w c) (he : emitF env fuel w i a = some w') :
    (w'.trace.filter (fun p => decide (p.1 = c)) =
      w.trace.filter (fun p => decide (p.1 = c)) ∧ cbDead w' c) ∧
    (destroy_owner w o).instances = w.instances ∧
    expired (destroy_owner w o).alive wr = true ∧
    (∀ s : SigInst, wr ∉ (cleanup_expired (destroy_owner w o).alive s).slots) ∧
    (slot_count (destroy_owner w o) i).2 =
      ((getInst w i).slots.filter
        (fun x => !(expired (destroy_owner w o).alive x))).length := by
  have hexp : expired (destroy_owner w o).alive wr = true := by
    show (expired (w.alive.filter (fun x => decide (x ≠ o))) wr) = true
    unfold expired
    rw [hwr]
    simp
  refine ⟨emitF_cbDead env fuel w i a c w' hc he, rfl, hexp, ?_, rfl⟩
  intro s hmem
  have hpred := (List.mem_filter.mp hmem).2
  rw [hexp] at hpred
  simp at hpred

/-- Witness for the owner-expiry theorem: instance 0 holds an owner-bound
slot (callable 3, owner 5, already dead) and a free slot; emitting invokes
only the free slot, and the dead entry is expired. -/
theorem owner_destroyed_lazy_removal_witness :
    (wC5res.trace.filter (fun p => decide (p.1 = 3)) =
      w0C5.trace.filter (fun p => decide (p.1 = 3))) ∧
    (destroy_owner w0C5 5).instances = w0C5.instances ∧
    expired (destroy_owner w0C5 5).alive ⟨3, some 5, 0⟩ = true := by
  have hc : cbDead w0C5 3 := by
    constructor
    · intro j wrx hwrx hcb
      cases j with
      | zero =>
        simp [getInst, w0C5, List.getD_cons_zero] at hwrx
        rcases hwrx with rfl | rfl
        · decide
        · exact absurd hcb (by decide)
      | succ m =>
        simp [getInst, w0C5, List.getD_cons_succ, List.getD_nil] at hwrx
    · intro wrx hwrx hcb
      simp [w0C5] at hwrx
  obtain ⟨⟨hfil, _⟩, hinst, hexp, _⟩ :=
    owner_destroyed_lazy_removal envNop 10 w0C5 wC5res 0 9 5 3 ⟨3, some 5, 0⟩ rfl hc
      (by decide)
  exact ⟨hfil, hinst, hexp⟩

/-- C6: invoking a Connection's disconnect action (bound to instance `i`,
id `d`, the entry present exactly once, nothing expired, the queue idle)
immediately decrements `slot_count()` by one; no wrapper with the removed
slot's callable `c` remains anywhere (`cbGone`), and that absence persists
through every subsequent `emit`, which therefore never invokes the slot; but
the disconnect does not touch the shared pending queue, and every wrapper
already captured there by a draining emission still runs to completion. -/
theorem connection_disconnect_effects (w : World) (i d c : Nat)
    (hrange : i < w.instances.length)
    (hone : (getInst w i).slots.countP (fun x => decide (x.id = d)) = 1)
    (hfresh : ∀ wr ∈ (getInst w i).slots, expired w.alive wr = false)
    (honly : ∀ j, ∀ wr ∈ (getInst w j).slots, wr.cb = c → j = i ∧ wr.id = d)
    (hq : w.slots_queue = []) :
    (slot_count (conn_disconnect ⟨some (i, d), true⟩ w).2.1 i).2 + 1 =
      (slot_count w i).2 ∧
    cbGone (conn_disconnect ⟨some (i, d), true⟩ w).2.1 c ∧
    (∀ env fuel j a w2 w3, cbGone w2 c → emitF env fuel w2 j a = some w3 →
      w3.trace.filter (fun p => decide (p.1 = c)) =
        w2.trace.filter (fun p => decide (p.1 = c)) ∧ cbGone w3 c) ∧
    (conn_disconnect ⟨some (i, d), true⟩ w).2.1.slots_queue = w.slots_queue ∧
    (∀ env fuel arg wq w4 wr, wq.emitting = true → wr ∈ wq.slots_queue →
      expired wq.alive wr = false → drainF env fuel wq arg = some w4 →
      (wr.cb, arg) ∈ w4.trace) := by
  have hgi : getInst (setInst w i (disconnect_by_id (getInst w i) d)) i =
      disconnect_by_id (getInst w i) d := by
    rw [getInst_setInst, if_pos ⟨rfl, hrange⟩]
  have hsub : ∀ x ∈ (disconnect_by_id (getInst w i) d).slots, x ∈ (getInst w i).slots :=
    fun x hx => (List.filter_sublist _).subset hx
  have hclean1 : (getInst w i).slots.filter (fun x => !(expired w.alive x)) =
      (getInst w i).slots :=
    List.filter_eq_self.mpr (fun x hx => by rw [hfresh x hx]; rfl)
  have hclean2 : (disconnect_by_id (getInst w i) d).slots.filter
      (fun x => !(expired w.alive x)) = (disconnect_by_id (getInst w i) d).slots :=
    List.filter_eq_self.mpr (fun x hx => by rw [hfresh x (hsub x hx)]; rfl)
  refine ⟨?_, ⟨fun j wr hwr hcb => ?_, fun wr hwr => ?_⟩, ?_, rfl, ?_⟩
  · show ((cleanup_expired w.alive
        (getInst (setInst w i (disconnect_by_id (getInst w i) d)) i)).slots).length + 1 =
      ((cleanup_expired w.alive (getInst w i)).slots).length
    rw [hgi]
    show ((disconnect_by_id (getInst w i) d).slots.filter
        (fun x => !(expired w.alive x))).length + 1 =
      ((getInst w i).slots.filter (fun x => !(expired w.alive x))).length
    rw [hclean1, hclean2]
    show ((getInst w i).slots.filter (fun x => decide (x.id ≠ d))).length + 1 =
      (getInst w i).slots.length
    rw [← List.countP_eq_length_filter]
    have hsplit := List.length_eq_countP_add_countP
      (fun x : SlotWrapper => decide (x.id = d)) (getInst w i).slots
    have hcongr : (getInst w i).slots.countP
        (fun x => decide (¬(decide (x.id = d) = true))) =
        (getInst w i).slots.countP (fun x => decide (x.id ≠ d)) := by
      apply List.countP_congr
      intro x _
      simp
    rw [hone, hcongr] at hsplit
    omega
  · by_cases hij : i = j ∧ i < w.instances.length
    · obtain ⟨hji, _⟩ := hij
      subst hji
      rw [show getInst (conn_disconnect ⟨some (i, d), true⟩ w).2.1 i =
          getInst (setInst w i (disconnect_by_id (getInst w i) d)) i from rfl, hgi] at hwr
      obtain ⟨hmem, hpred⟩ := List.mem_filter.mp hwr
      obtain ⟨_, hid⟩ := honly i wr hmem hcb
      rw [hid] at hpred
      simp at hpred
    · rw [show getInst (conn_disconnect ⟨some (i, d), true⟩ w).2.1 j =
          getInst (setInst w i (disconnect_by_id (getInst w i) d)) j from rfl,
        getInst_setInst, if_neg hij] at hwr
      obtain ⟨hji, _⟩ := honly j wr hwr hcb
      exact hij ⟨hji.symm, hrange⟩
  · have hwq : wr ∈ w.slots_queue := hwr
    rw [hq] at hwq
    cases hwq
  · intro env fuel j a w2 w3 hg he
    exact emitF_cbGone env fuel w2 j a c w3 hg he
  · intro env fuel arg wq w4 wr hemq hmem hexp hdr
    obtain ⟨_, _, _, _, t, htr, _, hcomp⟩ := drainF_master env fuel wq arg w4 hemq hdr
    rw [htr]
    exact List.mem_append_right _ (hcomp wr hmem hexp)

/-- Witness for the disconnect theorem: two slots, disconnect the one with
id 1 (callable 7); the count drops from 2 to 1 and the queue is untouched. -/
theorem connection_disconnect_effects_witness :
    (slot_count (conn_disconnect ⟨some (0, 1), true⟩ w0C6).2.1 0).2 + 1 =
      (slot_count w0C6 0).2 ∧
    (conn_disconnect ⟨some (0, 1), true⟩ w0C6).2.1.slots_queue = w0C6.slots_queue := by
  have honly : ∀ j, ∀ wr ∈ (getInst w0C6 j).slots, wr.cb = 7 → j = 0 ∧ wr.id = 1 := by
    intro j wr hwr hcb
    cases j with
    | zero =>
      simp [getInst, w0C6, List.getD_cons_zero] at hwr
      rcases hwr with rfl | rfl
      · exact absurd hcb (by decide)
      · exact ⟨rfl, rfl⟩
    | succ m =>
      simp [getInst, w0C6, List.getD_cons_succ, List.getD_nil] at hwr
  obtain ⟨hcount, _, _, hqueue, _⟩ :=
    connection_disconnect_effects w0C6 0 1 7 (by decide) (by decide) (by decide) honly rfl
  exact ⟨hcount, hqueue⟩

/-- C10: within one signal instance the identifier counter only moves
forward.  `connect` hands out the current counter value and bumps it;
`disconnect_all`, a Connection's disconnect and `emit` all leave every
counter untouched (and none of them resets it); removing a stale identifier
`d` — one no wrapper carries — leaves a subscriber list completely unchanged;
and since a later-registered slot gets an id that is `≥` the counter, which
exceeds every stale id, firing a stale Connection's action can never remove
the slot registered later: the fresh wrapper survives it. -/
theorem identifier_monotonicity (env : Env) (w : World) (i d cb : Nat)
    (hrange : i < w.instances.length)
    (hd : d < (getInst w i).next_id) :
    (getInst (connect w i cb).1 i).next_id = (getInst w i).next_id + 1 ∧
    (connect w i cb).2.target = some (i, (getInst w i).next_id) ∧
    (∀ j, (getInst (disconnect_all w i) j).next_id = (getInst w j).next_id) ∧
    (∀ cn j, (getInst (conn_disconnect cn w).2.1 j).next_id = (getInst w j).next_id) ∧
    (∀ fuel i2 a w2, emitF env fuel w i2 a = some w2 →
      ∀ j, (getInst w2 j).next_id = (getInst w j).next_id) ∧
    (∀ s : SigInst, (∀ wr ∈ s.slots, wr.id ≠ d) → disconnect_by_id s d = s) ∧
    (⟨cb, none, (getInst w i).next_id⟩ : SlotWrapper) ∈
      (disconnect_by_id (getInst (connect w i cb).1 i) d).slots := by
  have hset : ∀ (i2 : Nat) (s : SigInst) (j : Nat), s.next_id = (getInst w i2).next_id →
      (getInst (setInst w i2 s) j).next_id = (getInst w j).next_id := by
    intro i2 s j hs
    rw [getInst_setInst]
    by_cases hcase : i2 = j ∧ i2 < w.instances.length
    · rw [if_pos hcase, hs, hcase.1]
    · rw [if_neg hcase]
  have hgi2 : getInst (connect w i cb).1 i =
      ⟨(cleanup_expired w.alive (getInst w i)).slots ++
        [⟨cb, none, (getInst w i).next_id⟩], (getInst w i).next_id + 1⟩ := by
    rw [show (connect w i cb).1 = setInst w i
          ⟨(cleanup_expired w.alive (getInst w i)).slots ++
            [⟨cb, none, (getInst w i).next_id⟩], (getInst w i).next_id + 1⟩ from rfl,
      getInst_setInst, if_pos ⟨rfl, hrange⟩]
  refine ⟨by rw [hgi2], rfl, ?_, ?_, ?_, ?_, ?_⟩
  · intro j
    exact hset i ⟨[], (getInst w i).next_id⟩ j rfl
  · intro cn j
    unfold conn_disconnect
    by_cases hc : cn.connected = true
    · rw [if_pos hc]
      cases ht : cn.target with
      | none => rfl
      | some t =>
        obtain ⟨i2, d2⟩ := t
        simp only
        exact hset i2 (disconnect_by_id (getInst w i2) d2) j rfl
    · rw [if_neg hc]
  · intro fuel i2 a w2 he j
    exact ((emitF_frame env fuel w i2 a w2 he).2 j).1
  · intro s hs
    have hfix : s.slots.filter (fun x => decide (x.id ≠ d)) = s.slots :=
      List.filter_eq_self.mpr (fun x hx => decide_eq_true (hs x hx))
    show ({ s with slots := s.slots.filter (fun x => decide (x.id ≠ d)) } : SigInst) = s
    rw [hfix]
  · rw [hgi2]
    refine List.mem_filter.mpr ⟨List.mem_append_right _ (List.mem_singleton.mpr rfl), ?_⟩
    exact decide_eq_true (Nat.ne_of_lt hd).symm

/-- Witness for the identifier theorem: the instance has counter 2 and one
slot with id 1; id 0 is stale; a fresh connect takes id 2, and firing the
stale id-0 disconnect does not remove the fresh slot. -/
theorem identifier_monotonicity_witness :
    (getInst (connect w0C10 0 9).1 0).next_id = (getInst w0C10 0).next_id + 1 ∧
    (⟨9, none, (getInst w0C10 0).next_id⟩ : SlotWrapper) ∈
      (disconnect_by_id (getInst (connect w0C10 0 9).1 0) 0).slots := by
  obtain ⟨hbump, _, _, _, _, _, hsurvive⟩ :=
    identifier_monotonicity envNop w0C10 0 0 9 (by decide) (by decide)
  exact ⟨hbump, hsurvive⟩

end Ant
